import Mathlib

/-!
Shallow embedding of `RISC-V-Processor/Verify_Script.py`: the sparse-memory
artifact codec (`parse_file`), the comparison engine (`compare_data`), the
per-case verification (`verify`), the batch runner (`run_all_testcases`),
and the interactive prompt loop of `main`.

Files are modelled as `Option (List String)`: `none` means the file does not
exist on disk, `some lines` is its content split into lines.  Python dicts
with integer keys are modelled as association lists with Python's
update-in-place-or-append insertion semantics.  Terminal colour escapes and
quote characters in messages are dropped; the informative text is kept.
Python string operations are modelled for ASCII data (the artifacts are hex
dumps): `str.strip` drops leading/trailing whitespace, `str.lower` maps
A..Z to a..z, `int(...)` accepts an optional sign, decimal digits and
single underscores between digits.
-/

namespace VerifyScript

/-- ASCII lowercase of one character, modelling Python `str.lower` on the
hex-dump alphabet: maps `A`..`Z` (codes 65..90) to `a`..`z`. -/
def lowerChar (c : Char) : Char :=
  if 65 ≤ c.toNat ∧ c.toNat ≤ 90 then Char.ofNat (c.toNat + 32) else c

/-- Python `str.lower` on a character list. -/
def lowerL (cs : List Char) : List Char := cs.map lowerChar

/-- Python `str.strip` on a character list: remove leading and trailing
whitespace. -/
def stripL (cs : List Char) : List Char :=
  ((cs.dropWhile Char.isWhitespace).reverse.dropWhile Char.isWhitespace).reverse

/-- Python `str.lower` lifted to `String`. -/
def pyLower (s : String) : String := ⟨lowerL s.data⟩

/-- Python `str.strip` lifted to `String`. -/
def pyStrip (s : String) : String := ⟨stripL s.data⟩

/-- Tail of the digit body of a Python integer literal: after a digit, each
underscore must be followed by a digit. -/
def intBodyRest : List Char → Bool
  | [] => true
  | '_' :: [] => false
  | '_' :: c :: cs => c.isDigit && intBodyRest cs
  | c :: cs => c.isDigit && intBodyRest cs

/-- Digit body of a Python integer literal: nonempty, starts with a digit,
underscores only between digits. -/
def intBodyOk : List Char → Bool
  | [] => false
  | c :: cs => c.isDigit && intBodyRest cs

/-- Numeric value of a digit body, skipping underscores. -/
def digitsVal (cs : List Char) : Nat :=
  cs.foldl (fun acc c => if c = '_' then acc else acc * 10 + (c.toNat - 48)) 0

/-- Python `int(s)` for decimal strings: strips surrounding whitespace,
allows an optional `+`/`-` sign, then a digit body; `none` models a raised
`ValueError`. -/
def pyInt (s : String) : Option Int :=
  match stripL s.data with
  | '+' :: rest => if intBodyOk rest then some (digitsVal rest : Int) else none
  | '-' :: rest => if intBodyOk rest then some (-(digitsVal rest : Int)) else none
  | rest => if intBodyOk rest then some (digitsVal rest : Int) else none

/-- A Python dict with `int` keys and `str` values, as an association list in
insertion order. -/
abbrev Dict : Type := List (Int × String)

/-- `d[k] = v` on a Python dict: replace the value in place if the key is
present, otherwise append the new binding. -/
def dictInsert (d : Dict) (k : Int) (v : String) : Dict :=
  if (List.any d fun p => p.1 == k) then
    List.map (fun p => if p.1 == k then (k, v) else p) d
  else
    List.append d [(k, v)]

/-- `d.get(k)` on a Python dict (without default). -/
def dictGet (d : Dict) (k : Int) : Option String :=
  (List.find? (fun p => p.1 == k) d).map Prod.snd

/-- The key set of a Python dict, in insertion order. -/
def dictKeys (d : Dict) : List Int := List.map Prod.fst d

/-- State threaded through `parse_file`'s line loop: the dict built so far and
the warnings printed so far. -/
structure ParseState where
  data : Dict
  warnings : List String
deriving DecidableEq

/-- The warning printed for an unparseable data line (colour codes and quote
characters dropped). -/
def warnMsg (filename line : String) : String :=
  "Warning: Could not parse line " ++ line ++ " in " ++ filename

/-- One iteration of the `for line in f` loop of `parse_file`:
strip the line; skip it if empty or a `//` comment; if it starts with `[`,
split on `]`, parse the bracketed index with `int` (a failure models
`ValueError`), require a part after the first `]` (its absence models
`IndexError` on `parts[1]`), and store the stripped, lowercased value;
on either exception print a warning and continue.  Any other line falls
through the `if` silently. -/
def parseLineCore (filename : String) (st : ParseState) (line : List Char) : ParseState :=
  if line = [] then st
  else if line.take 2 = ['/', '/'] then st
  else if line.head? = some '[' then
    match List.splitOnP (fun c => c == ']') line with
    | [] => st
    | p0 :: rest =>
      match pyInt ⟨p0.drop 1⟩ with
      | none => { st with warnings := st.warnings ++ [warnMsg filename ⟨line⟩] }
      | some idx =>
        match rest with
        | [] => { st with warnings := st.warnings ++ [warnMsg filename ⟨line⟩] }
        | p1 :: _ => { st with data := dictInsert st.data idx ⟨lowerL (stripL p1)⟩ }
  else st

/-- One iteration of the line loop, on the raw line as read from the file
(stripped first, as the source does). -/
def parseLine (filename : String) (st : ParseState) (rawLine : String) : ParseState :=
  parseLineCore filename st (stripL rawLine.data)

/-- The whole line loop of `parse_file` over the lines of an existing file. -/
def parseLines (filename : String) (lines : List String) : ParseState :=
  lines.foldl (parseLine filename) ⟨[], []⟩

/-- `parse_file`: `none` when the file does not exist, otherwise the dict
built from its lines. -/
def parse_file (filename : String) (contents : Option (List String)) : Option Dict :=
  contents.map fun lines => (parseLines filename lines).data

/-- One mismatch entry appended by `compare_data`'s loop:
`{'index': idx, 'simulation': sim_val, 'golden': golden_val}`. -/
structure Mism where
  index : Int
  simulation : String
  golden : String
deriving DecidableEq, Repr

/-- `sorted(set(sim_data.keys()) | set(golden_data.keys()))`: the union of the
two key sets, visited in ascending numeric order. -/
def sortedUnionKeys (sim_data golden_data : Dict) : List Int :=
  List.insertionSort (· ≤ ·) ((dictKeys sim_data ++ dictKeys golden_data).dedup)

/-- `sim_data.get(idx, MISSING)`: the value at an index, with the sentinel
substituted when absent. -/
def getOrMissing (d : Dict) (idx : Int) : String :=
  (dictGet d idx).getD "MISSING"

/-- The mismatch list built by `compare_data`'s `for idx in sorted(all_indices)`
loop: one record per union index whose two (sentinel-substituted) values
differ, in ascending index order. -/
def mismatch_list (sim_data golden_data : Dict) : List Mism :=
  (sortedUnionKeys sim_data golden_data).filterMap fun idx =>
    let sim_val := getOrMissing sim_data idx
    let golden_val := getOrMissing golden_data idx
    if sim_val ≠ golden_val then some ⟨idx, sim_val, golden_val⟩ else none

/-- Python `f"{s:<12}"`: left-justify in a field of width 12. -/
def pad12 (s : String) : String :=
  s ++ ⟨List.replicate (12 - s.data.length) ' '⟩

/-- One line of `compare_data`'s mismatch detail text (colour codes dropped). -/
def mismRow (m : Mism) : String :=
  "    [" ++ toString m.index ++ "] " ++ "Simulation: " ++ pad12 m.simulation
    ++ " " ++ "Golden: " ++ pad12 m.golden ++ "\n"

/-- The detail text `compare_data` returns when mismatches exist. -/
def mismDetails (ms : List Mism) : String :=
  "\n  Found " ++ toString ms.length ++ " mismatch(es):\n"
    ++ String.join (ms.map mismRow)

/-- The `(pass, mismatch_count, details)` triple returned by `compare_data`. -/
structure CompareResult where
  passed : Bool
  mismatch_count : Nat
  details : String
deriving DecidableEq

/-- `compare_data(sim_data, golden_data, name)`: early failure naming the
missing side when either parse result is `None`; otherwise pass iff the
mismatch list over the sorted key union is empty, reporting its length. -/
def compare_data (sim_data golden_data : Option Dict) (name : String) :
    CompareResult :=
  match sim_data with
  | none => ⟨false, 0, name ++ " simulation output not found"⟩
  | some s =>
    match golden_data with
    | none => ⟨false, 0, name ++ " golden reference not found"⟩
    | some g =>
      let ms := mismatch_list s g
      if ms.isEmpty then ⟨true, 0, ""⟩
      else ⟨false, ms.length, mismDetails ms⟩

/-- A filesystem snapshot: filename to file content, `none` when absent. -/
def FS : Type := String → Option (List String)

/-- The result dict returned by `verify()`. -/
structure VerifyResult where
  success : Bool
  rf_pass : Bool
  dm_pass : Bool
  rf_mismatches : Nat
  dm_mismatches : Nat
  rf_details : String
  dm_details : String
deriving DecidableEq

/-- `verify()` over a filesystem snapshot of the Testbench directory: if any
of the four required artifacts is absent, return the early-failure record;
otherwise parse all four, compare each channel, and report overall success
as `sum([rf_pass, dm_pass]) == 2`. -/
def verify (fs : FS) : VerifyResult :=
  let missing_files :=
    (["RF.out", "RF.golden", "DM.out", "DM.golden"]).filter fun f => (fs f).isNone
  if missing_files.isEmpty = false then
    ⟨false, false, false, 0, 0, "", ""⟩
  else
    let rf_sim := parse_file "RF.out" (fs "RF.out")
    let rf_golden := parse_file "RF.golden" (fs "RF.golden")
    let dm_sim := parse_file "DM.out" (fs "DM.out")
    let dm_golden := parse_file "DM.golden" (fs "DM.golden")
    let rf := compare_data rf_sim rf_golden "RF"
    let dm := compare_data dm_sim dm_golden "DM"
    let passed_tests := (if rf.passed then 1 else 0) + (if dm.passed then 1 else 0)
    let overall := passed_tests == 2
    ⟨overall, rf.passed, dm.passed, rf.mismatch_count, dm.mismatch_count,
      rf.details, dm.details⟩

/-- The environment one test case id sees in `run_all_testcases`: whether
`Pattern/TestCase<i>.dat` exists, whether each external stage succeeds, and
the Testbench filesystem contents at `verify()` time.  (Vivado and
`Script.tcl` discovery happen before the loop; the model covers the loop.) -/
structure TC where
  present : Bool
  convertOk : Bool
  goldenOk : Bool
  simOk : Bool
  fs : FS

/-- The three collections `run_all_testcases` accumulates. -/
structure BatchState where
  results : List (Nat × VerifyResult)
  sim_failures : List Nat
  skipped : List Nat
deriving DecidableEq

/-- One iteration of the `for i in range(1, 13)` loop: skip on missing input,
failed conversion, or failed golden generation; record a simulation failure;
otherwise record `verify()`'s result. -/
def runCase (env : Nat → TC) (st : BatchState) (i : Nat) : BatchState :=
  let tc := env i
  if tc.present = false then { st with skipped := st.skipped ++ [i] }
  else if tc.convertOk = false then { st with skipped := st.skipped ++ [i] }
  else if tc.goldenOk = false then { st with skipped := st.skipped ++ [i] }
  else if tc.simOk = false then { st with sim_failures := st.sim_failures ++ [i] }
  else { st with results := st.results ++ [(i, verify tc.fs)] }

/-- The fixed id range `range(1, 13)` = 1..12. -/
def idRange : List Nat := List.range' 1 12

/-- The whole test-case loop of `run_all_testcases`. -/
def run_all_testcases (env : Nat → TC) : BatchState :=
  idRange.foldl (runCase env) ⟨[], [], []⟩

/-- `passed_count`: how many verified results have `success` (the summary
loop increments once per result dict with a true success flag). -/
def passed_count (st : BatchState) : Nat :=
  (st.results.filter fun p => p.2.success).length

/-- The boolean `run_all_testcases` returns:
false when no test case completed, else
`passed_count == total_run and not sim_failures`. -/
def batchSuccess (env : Nat → TC) : Bool :=
  let st := run_all_testcases env
  if st.results.length = 0 then false
  else (passed_count st == st.results.length) && st.sim_failures.isEmpty

/-- `sys.exit(0 if success else 1)` for the `all` mode of `main`. -/
def allModeExitCode (env : Nat → TC) : Nat :=
  if batchSuccess env then 0 else 1

/-- One event arriving at the interactive prompt: a typed line, or a
`KeyboardInterrupt`. -/
inductive InputEvent where
  | line (s : String)
  | interrupt
deriving DecidableEq

/-- How the `while True` prompt loop of `main` terminates. -/
inductive PromptOutcome where
  | cancelled
  | runAll
  | runCase (n : Int)
  | exhausted
deriving DecidableEq

/-- The `while True` input loop of `main`: strip and lowercase the line;
`all` starts the batch; a non-integer re-prompts (`ValueError`); an integer
outside 1..12 or an in-range id whose test-case file is absent re-prompts;
an in-range id whose file exists breaks out of the loop; a
`KeyboardInterrupt` returns from `main` (a clean exit). -/
def promptLoop (avail : Int → Bool) : List InputEvent → PromptOutcome
  | [] => .exhausted
  | .interrupt :: _ => .cancelled
  | .line s :: rest =>
    let t := pyLower (pyStrip s)
    if t = "all" then .runAll
    else
      match pyInt t with
      | none => promptLoop avail rest
      | some n =>
        if 1 ≤ n ∧ n ≤ 12 then
          if avail n then .runCase n else promptLoop avail rest
        else promptLoop avail rest

/-- The process exit status after each prompt outcome: a `KeyboardInterrupt`
at the prompt makes `main` return normally (status 0). -/
def promptExitStatus : PromptOutcome → Option Nat
  | .cancelled => some 0
  | _ => none

/-- `sys.exit(1)` in `main`'s outer `except KeyboardInterrupt` handler — the
failure status used for interrupts outside the prompt. -/
def mainInterruptExitCode : Nat := 1

/-- The empty filesystem: no artifact exists. -/
def emptyFS : FS := fun _ => none

/-! ## Helper lemmas -/

theorem toNat_ofNat_valid {n : Nat} (h : n.isValidChar) :
    (Char.ofNat n).toNat = n := by
  rw [Char.ofNat, dif_pos h]; rfl

theorem lowerChar_idem (c : Char) : lowerChar (lowerChar c) = lowerChar c := by
  unfold lowerChar
  by_cases h : 65 ≤ c.toNat ∧ c.toNat ≤ 90
  · rw [if_pos h]
    have hv : (Char.ofNat (c.toNat + 32)).toNat = c.toNat + 32 :=
      toNat_ofNat_valid (Or.inl (by omega))
    rw [if_neg]
    rw [hv]
    omega
  · rw [if_neg h, if_neg h]

theorem lowerL_idem (cs : List Char) : lowerL (lowerL cs) = lowerL cs := by
  simp only [lowerL, List.map_map]
  exact List.map_congr_left fun c _ => lowerChar_idem c

theorem pyLower_idem (s : String) : pyLower (pyLower s) = pyLower s := by
  simp only [pyLower]
  exact congrArg String.mk (lowerL_idem s.data)

theorem mem_dictInsert {d : Dict} {k : Int} {v : String} {p : Int × String}
    (h : p ∈ dictInsert d k v) : p ∈ d ∨ p = (k, v) := by
  unfold dictInsert at h
  split at h
  · rcases List.mem_map.mp h with ⟨q, hq, hfq⟩
    by_cases hk : q.1 == k
    · right; rw [if_pos hk] at hfq; exact hfq.symm
    · left; rw [if_neg hk] at hfq; exact hfq ▸ hq
  · rcases List.mem_append.mp h with h' | h'
    · exact Or.inl h'
    · right
      simpa using h'

/-- Every value a `parseLineCore` step stores is a fixpoint of lowercasing. -/
theorem parseLineCore_values {filename : String} {st : ParseState} {line : List Char}
    (h : ∀ p ∈ st.data, pyLower p.2 = p.2) :
    ∀ p ∈ (parseLineCore filename st line).data, pyLower p.2 = p.2 := by
  unfold parseLineCore
  split
  · exact h
  · split
    · exact h
    · split
      · split
        · exact h
        · split
          · exact h
          · split
            · exact h
            · intro p hp
              rcases mem_dictInsert hp with h' | h'
              · exact h p h'
              · rw [h']
                exact congrArg String.mk (lowerL_idem _)
      · exact h

/-- Every value a `parseLine` step stores is a fixpoint of lowercasing. -/
theorem parseLine_values {filename : String} {st : ParseState} {rawLine : String}
    (h : ∀ p ∈ st.data, pyLower p.2 = p.2) :
    ∀ p ∈ (parseLine filename st rawLine).data, pyLower p.2 = p.2 :=
  parseLineCore_values h

/-- Every value in a parsed dict is a fixpoint of lowercasing. -/
theorem parseLines_values (filename : String) (lines : List String) :
    ∀ p ∈ (parseLines filename lines).data, pyLower p.2 = p.2 := by
  suffices key : ∀ (ls : List String) (st : ParseState),
      (∀ p ∈ st.data, pyLower p.2 = p.2) →
      ∀ p ∈ (ls.foldl (parseLine filename) st).data, pyLower p.2 = p.2 by
    exact key lines ⟨[], []⟩ (by intro p hp; cases hp)
  intro ls
  induction ls with
  | nil => intro st h; exact h
  | cons l t ih =>
    intro st h
    exact ih _ (parseLine_values h)

theorem dictGet_lowerFixed {d : Dict} {k : Int} {v : String}
    (hinv : ∀ p ∈ d, pyLower p.2 = p.2) (h : dictGet d k = some v) :
    pyLower v = v := by
  unfold dictGet at h
  rcases hf : List.find? (fun p => p.1 == k) d with _ | q
  · rw [hf] at h; cases h
  · rw [hf] at h
    have hq := List.mem_of_find?_eq_some hf
    have h2 : q.2 = v := by simpa using h
    rw [← h2]
    exact hinv q hq

theorem isEmpty_false_of_mem {α : Type} {a : α} {l : List α} (h : a ∈ l) :
    l.isEmpty = false := by
  cases l with
  | nil => cases h
  | cons x t => rfl

/-- When any of the four required artifacts is absent, `verify` returns the
early-failure record. -/
theorem verify_missing (fs : FS)
    (h : fs "RF.out" = none ∨ fs "RF.golden" = none ∨
         fs "DM.out" = none ∨ fs "DM.golden" = none) :
    verify fs = ⟨false, false, false, 0, 0, "", ""⟩ := by
  have key : (["RF.out", "RF.golden", "DM.out", "DM.golden"].filter
      fun f => (fs f).isNone).isEmpty = false := by
    rcases h with h | h | h | h
    · exact isEmpty_false_of_mem (a := "RF.out")
        (List.mem_filter.mpr ⟨by simp, by simp [h]⟩)
    · exact isEmpty_false_of_mem (a := "RF.golden")
        (List.mem_filter.mpr ⟨by simp, by simp [h]⟩)
    · exact isEmpty_false_of_mem (a := "DM.out")
        (List.mem_filter.mpr ⟨by simp, by simp [h]⟩)
    · exact isEmpty_false_of_mem (a := "DM.golden")
        (List.mem_filter.mpr ⟨by simp, by simp [h]⟩)
  simp only [verify, key]
  simp

/-! ## C6 — a missing side short-circuits the comparison -/

/-- **C6.** When either parsed image is missing (`None`), `compare_data`
returns the failed result whose detail message names the missing side
(simulation output first), and no index-by-index comparison happens: the
result does not depend on the contents of the other side at all. -/
theorem compare_missing_side_spec :
    (∀ (g : Option Dict) (name : String),
      compare_data none g name =
        ⟨false, 0, name ++ " simulation output not found"⟩) ∧
    (∀ (d : Dict) (name : String),
      compare_data (some d) none name =
        ⟨false, 0, name ++ " golden reference not found"⟩) ∧
    (∀ (g g' : Option Dict) (name : String),
      compare_data none g name = compare_data none g' name) ∧
    (∀ (d d' : Dict) (name : String),
      compare_data (some d) none name = compare_data (some d') none name) :=
  ⟨fun _ _ => rfl, fun _ _ => rfl, fun _ _ _ => rfl, fun _ _ _ => rfl⟩

/-! ## C9 — zero reported mismatches do not imply a pass -/

/-- **C9.** A missing side yields `(False, 0, reason)` from `compare_data`,
and `verify` with any of the four required artifacts absent returns
`success = False` with both mismatch counters `0` — so a zero mismatch
count does not imply the channel passed. -/
theorem zero_mismatch_on_missing_spec :
    (∀ (g : Option Dict) (name : String),
      compare_data none g name =
        ⟨false, 0, name ++ " simulation output not found"⟩) ∧
    (∀ (d : Dict) (name : String),
      compare_data (some d) none name =
        ⟨false, 0, name ++ " golden reference not found"⟩) ∧
    (∀ fs : FS,
      (fs "RF.out" = none ∨ fs "RF.golden" = none ∨
       fs "DM.out" = none ∨ fs "DM.golden" = none) →
      (verify fs).success = false ∧ (verify fs).rf_mismatches = 0 ∧
        (verify fs).dm_mismatches = 0) :=
  ⟨fun _ _ => rfl, fun _ _ => rfl,
   fun fs h => by rw [verify_missing fs h]; exact ⟨rfl, rfl, rfl⟩⟩

/-- Witness for C9 at the empty filesystem. -/
theorem zero_mismatch_on_missing_spec_witness :
    (verify emptyFS).success = false ∧ (verify emptyFS).rf_mismatches = 0 ∧
      (verify emptyFS).dm_mismatches = 0 :=
  zero_mismatch_on_missing_spec.2.2 emptyFS (Or.inl rfl)

/-! ## C10 — parse_file is total; non-bracket lines are silently ignored -/

/-- A stripped line not beginning with `[` leaves the parse state unchanged:
no warning, no entry. -/
theorem parseLineCore_ignored {filename : String} {st : ParseState}
    {line : List Char} (h : line.head? ≠ some '[') :
    parseLineCore filename st line = st := by
  unfold parseLineCore
  by_cases h1 : line = []
  · rw [if_pos h1]
  · rw [if_neg h1]
    by_cases h2 : line.take 2 = ['/', '/']
    · rw [if_pos h2]
    · rw [if_neg h2, if_neg h]

/-- **C10.** `parse_file` is total over existing files (it always returns a
mapping), and any line whose stripped form does not begin with `[` — blank,
comment, or any other text — is ignored silently: the state (mapping and
warnings) is unchanged, so only `[`-lines ever produce a warning or an
entry.  A file with no `[`-line parses to the empty state. -/
theorem parse_total_ignore_spec :
    (∀ (filename : String) (contents : List String),
      ∃ d : Dict, parse_file filename (some contents) = some d) ∧
    (∀ (filename : String) (st : ParseState) (rawLine : String),
      (stripL rawLine.data).head? ≠ some '[' →
      parseLine filename st rawLine = st) ∧
    (∀ (filename : String) (lines : List String),
      (∀ l ∈ lines, (stripL l.data).head? ≠ some '[') →
      parseLines filename lines = ⟨[], []⟩) := by
  refine ⟨fun filename contents => ⟨_, rfl⟩,
          fun filename st rawLine h => parseLineCore_ignored h, ?_⟩
  intro filename lines h
  unfold parseLines
  induction lines with
  | nil => rfl
  | cons l t ih =>
    rw [List.foldl_cons, parseLine, parseLineCore_ignored (h l (by simp))]
    exact ih fun x hx => h x (by simp [hx])

/-- Witness for C10: a plain-text line and a file of such lines parse to
nothing, silently. -/
theorem parse_total_ignore_spec_witness :
    parseLine "RF.out" ⟨[], []⟩ "xyz" = ⟨[], []⟩ ∧
      parseLines "RF.out" ["xyz", "  hello  "] = ⟨[], []⟩ :=
  ⟨parse_total_ignore_spec.2.1 "RF.out" ⟨[], []⟩ "xyz" (by decide),
   parse_total_ignore_spec.2.2 "RF.out" ["xyz", "  hello  "] (by decide)⟩

/-! ## C3 — malformed data lines -/

/-- **C3 counterexample.** The claim says a data line with a missing value
token is warned about and skipped with no entry stored.  The code does the
opposite on `[0]`: `"[0]".split(']')` is `['[0', '']`, the index parses, the
empty second part is stored, and no warning is printed — the parse result is
`{0: ''}` with an empty warning list. -/
theorem parse_missing_value_counterexample :
    (parseLines "RF.out" ["[0]"]).data = [((0 : Int), "")] ∧
      (parseLines "RF.out" ["[0]"]).warnings = [] := by
  exact ⟨by decide, by decide⟩

/-- A line whose first two stripped characters are `//` cannot begin with
`[`. -/
theorem take_two_slash_head {line : List Char}
    (h : line.take 2 = ['/', '/']) : line.head? = some '/' := by
  cases line with
  | nil => cases h
  | cons a t =>
    simp only [List.take_succ_cons] at h
    have : a = '/' := (List.cons.injEq _ _ _ _).mp h |>.1
    rw [this]
    rfl

/-- **C3 (amended).** A data line beginning with `[` whose bracketed index is
not an integer (Python `ValueError`) or which has no closing bracket (so
`parts[1]` raises `IndexError`) is reported as a warning and skipped: no
entry is stored and the state is otherwise unchanged, so parsing continues
over the remaining lines (the fold structure never aborts).  A line with a
closing bracket but a missing value token, however, is NOT treated as
malformed: `[0]` stores the empty-string value for index 0 with no
warning. -/
theorem parse_malformed_spec :
    (∀ (filename : String) (st : ParseState) (line : List Char)
        (p0 : List Char) (rest : List (List Char)),
      line.head? = some '[' →
      List.splitOnP (fun c => c == ']') line = p0 :: rest →
      (rest = [] ∨ pyInt ⟨p0.drop 1⟩ = none) →
      parseLineCore filename st line =
        { st with warnings := st.warnings ++ [warnMsg filename ⟨line⟩] }) ∧
    (∀ (filename : String) (l : String) (t : List String) (st : ParseState),
      (l :: t).foldl (parseLine filename) st =
        t.foldl (parseLine filename) (parseLine filename st l)) ∧
    ((parseLines "RF.out" ["[0]"]).data = [((0 : Int), "")] ∧
      (parseLines "RF.out" ["[0]"]).warnings = []) := by
  refine ⟨?_, fun _ _ _ _ => List.foldl_cons .., by decide, by decide⟩
  intro filename st line p0 rest hhead hsplit hbad
  unfold parseLineCore
  rw [if_neg (by rintro rfl; cases hhead), if_neg, if_pos hhead, hsplit]
  · rcases hpy : pyInt ⟨p0.drop 1⟩ with _ | idx
    · simp only [hpy]
    · rcases hbad with hrest | hnone
      · subst hrest
        simp only [hpy]
      · rw [hpy] at hnone; cases hnone
  · intro h2
    rw [take_two_slash_head h2] at hhead
    cases hhead

/-- Witness for C3 (amended), on the malformed lines `[abc` (non-integer
index, and also no closing bracket) and `[5 3` (no closing bracket). -/
theorem parse_malformed_spec_witness :
    parseLineCore "f" ⟨[], []⟩ ("[abc".data) =
      ⟨[], [warnMsg "f" "[abc"]⟩ ∧
    parseLineCore "f" ⟨[], []⟩ ("[5 3".data) =
      ⟨[], [warnMsg "f" "[5 3"]⟩ := by
  constructor
  · rw [parse_malformed_spec.1 "f" ⟨[], []⟩ ("[abc".data) ("[abc".data) []
      (by decide) (by decide) (Or.inl rfl)]
    rfl
  · rw [parse_malformed_spec.1 "f" ⟨[], []⟩ ("[5 3".data) ("[5 3".data) []
      (by decide) (by decide) (Or.inl rfl)]
    rfl

/-! ## C8 — prompt loop: re-prompt on invalid input, clean exit on interrupt -/

/-- **C8.** At the interactive prompt, every invalid input — a non-integer
token other than `all` (Python `ValueError`), an integer outside `[1, 12]`,
or an in-range integer whose test-case file does not exist — makes the loop
continue with the remaining input (a re-prompt), never terminate; and a
`KeyboardInterrupt` at the prompt ends the loop with the `cancelled`
outcome, whose exit status is `0`, unlike the failure status `1` used for
interrupts elsewhere in `main`. -/
theorem prompt_loop_spec :
    (∀ (avail : Int → Bool) (s : String) (rest : List InputEvent),
      pyLower (pyStrip s) ≠ "all" →
      pyInt (pyLower (pyStrip s)) = none →
      promptLoop avail (.line s :: rest) = promptLoop avail rest) ∧
    (∀ (avail : Int → Bool) (s : String) (rest : List InputEvent) (n : Int),
      pyLower (pyStrip s) ≠ "all" →
      pyInt (pyLower (pyStrip s)) = some n →
      ¬(1 ≤ n ∧ n ≤ 12) →
      promptLoop avail (.line s :: rest) = promptLoop avail rest) ∧
    (∀ (avail : Int → Bool) (s : String) (rest : List InputEvent) (n : Int),
      pyLower (pyStrip s) ≠ "all" →
      pyInt (pyLower (pyStrip s)) = some n →
      (1 ≤ n ∧ n ≤ 12) →
      avail n = false →
      promptLoop avail (.line s :: rest) = promptLoop avail rest) ∧
    (∀ (avail : Int → Bool) (rest : List InputEvent),
      promptLoop avail (.interrupt :: rest) = .cancelled) ∧
    (promptExitStatus .cancelled = some 0 ∧ mainInterruptExitCode = 1) := by
  refine ⟨?_, ?_, ?_, fun avail rest => rfl, rfl, rfl⟩
  · intro avail s rest hall hnone
    simp only [promptLoop]
    rw [if_neg hall, hnone]
  · intro avail s rest n hall hsome hout
    simp only [promptLoop]
    rw [if_neg hall, hsome]
    simp only [if_neg hout]
  · intro avail s rest n hall hsome hin hmiss
    simp only [promptLoop]
    rw [if_neg hall, hsome]
    simp [hin, hmiss]

/-- Witness for C8 on concrete invalid inputs `abc`, `13`, and `7` with
test case 7 absent, against an empty remaining stream. -/
theorem prompt_loop_spec_witness :
    promptLoop (fun _ => true) [.line "abc"] = promptLoop (fun _ => true) [] ∧
    promptLoop (fun _ => true) [.line "13"] = promptLoop (fun _ => true) [] ∧
    promptLoop (fun _ => false) [.line "7"] = promptLoop (fun _ => false) [] ∧
    promptLoop (fun _ => true) [.interrupt] = .cancelled :=
  ⟨prompt_loop_spec.1 (fun _ => true) "abc" [] (by decide) (by decide),
   prompt_loop_spec.2.1 (fun _ => true) "13" [] 13 (by decide) (by decide)
     (by decide),
   prompt_loop_spec.2.2.1 (fun _ => false) "7" [] 7 (by decide) (by decide)
     (by decide) rfl,
   prompt_loop_spec.2.2.2.1 (fun _ => true) []⟩

/-! ## C5 — overall success is the conjunction of the two channels -/

/-- A Testbench filesystem where all four artifacts exist and both channels
match. -/
def goodFS : FS := fun f =>
  if f = "RF.out" then some ["[0] 1"]
  else if f = "RF.golden" then some ["[0] 1"]
  else if f = "DM.out" then some ["[0] 1"]
  else if f = "DM.golden" then some ["[0] 1"]
  else none

/-- A Testbench filesystem where the register-file channel fully matches but
the data-memory channel has one mismatch. -/
def rfMatchDmMismatchFS : FS := fun f =>
  if f = "RF.out" then some ["[0] 1"]
  else if f = "RF.golden" then some ["[0] 1"]
  else if f = "DM.out" then some ["[0] 1"]
  else if f = "DM.golden" then some ["[0] 2"]
  else none

theorem sum_two_eq (a b : Bool) :
    (((if a then 1 else 0) + (if b then 1 else 0) : Nat) == 2) = (a && b) := by
  cases a <;> cases b <;> rfl

/-- **C5.** When all four artifacts exist (and hence parse), the overall
success flag of `verify` equals the conjunction of the register-file
channel's and the data-memory channel's passed flags; in particular, with a
fully matching register-file channel and a mismatching data-memory channel,
`rf_pass = true`, `dm_pass = false`, `success = false`. -/
theorem verify_overall_spec :
    (∀ fs : FS,
      (fs "RF.out").isSome = true → (fs "RF.golden").isSome = true →
      (fs "DM.out").isSome = true → (fs "DM.golden").isSome = true →
      (verify fs).success = ((verify fs).rf_pass && (verify fs).dm_pass)) ∧
    ((verify rfMatchDmMismatchFS).rf_pass = true ∧
      (verify rfMatchDmMismatchFS).dm_pass = false ∧
      (verify rfMatchDmMismatchFS).success = false ∧
      (verify rfMatchDmMismatchFS).dm_mismatches = 1) := by
  constructor
  · intro fs h1 h2 h3 h4
    rcases Option.isSome_iff_exists.mp h1 with ⟨a1, e1⟩
    rcases Option.isSome_iff_exists.mp h2 with ⟨a2, e2⟩
    rcases Option.isSome_iff_exists.mp h3 with ⟨a3, e3⟩
    rcases Option.isSome_iff_exists.mp h4 with ⟨a4, e4⟩
    have key : (["RF.out", "RF.golden", "DM.out", "DM.golden"].filter
        fun f => (fs f).isNone) = [] := by
      simp [List.filter, e1, e2, e3, e4]
    simp only [verify, key]
    simp only [List.isEmpty_nil]
    exact sum_two_eq _ _
  · exact ⟨by decide, by decide, by decide, by decide⟩

/-- Witness for C5 at a filesystem with all four artifacts present. -/
theorem verify_overall_spec_witness :
    (verify goodFS).success = ((verify goodFS).rf_pass && (verify goodFS).dm_pass) :=
  verify_overall_spec.1 goodFS rfl rfl rfl rfl

/-! ## C7 — lowercase normalization makes comparison case-insensitive -/

/-- Two dicts that agree at every key produce no mismatches. -/
theorem mismatch_list_eq_nil {a b : Dict}
    (h : ∀ k : Int, dictGet a k = dictGet b k) : mismatch_list a b = [] := by
  unfold mismatch_list
  rw [List.filterMap_eq_nil_iff]
  intro idx _
  have : getOrMissing a idx = getOrMissing b idx := by
    unfold getOrMissing
    rw [h idx]
  simp [this]

/-- An empty mismatch list yields the passing comparison result. -/
theorem compare_data_pass {a b : Dict} (name : String)
    (h : mismatch_list a b = []) :
    compare_data (some a) (some b) name = ⟨true, 0, ""⟩ := by
  simp only [compare_data, h]
  rfl

/-- **C7.** Value tokens are normalized to lowercase at parse time (every
value retrievable from a parsed dict is a lowercase fixpoint), so comparison
is case-insensitive: whenever two parsed artifacts have values equal up to
lowercasing at every index, `compare_data` reports zero mismatches and
passes; in particular on the spec's example pair differing only in hex
letter case. -/
theorem case_insensitive_spec :
    (∀ (filename : String) (lines : List String) (k : Int) (v : String),
      dictGet (parseLines filename lines).data k = some v → pyLower v = v) ∧
    (∀ (fnA fnB : String) (lA lB : List String) (name : String),
      (∀ k : Int, Option.map pyLower (dictGet (parseLines fnA lA).data k) =
                  Option.map pyLower (dictGet (parseLines fnB lB).data k)) →
      compare_data (parse_file fnA (some lA)) (parse_file fnB (some lB)) name =
        ⟨true, 0, ""⟩) ∧
    (compare_data (parse_file "RF.out" (some ["[0] 0000000a", "[1] ff"]))
        (parse_file "RF.golden" (some ["[0] 0000000A", "[1] ff"])) "RF" =
      ⟨true, 0, ""⟩) := by
  refine ⟨fun fn lines k v h => dictGet_lowerFixed (parseLines_values fn lines) h,
          ?_, by decide⟩
  intro fnA fnB lA lB name h
  have hpt : ∀ k : Int, dictGet (parseLines fnA lA).data k =
      dictGet (parseLines fnB lB).data k := by
    intro k
    have hk := h k
    rcases ha : dictGet (parseLines fnA lA).data k with _ | va
    · rcases hb : dictGet (parseLines fnB lB).data k with _ | vb
      · rfl
      · rw [ha, hb] at hk
        cases hk
    · rcases hb : dictGet (parseLines fnB lB).data k with _ | vb
      · rw [ha, hb] at hk
        cases hk
      · rw [ha, hb] at hk
        have hva := dictGet_lowerFixed (parseLines_values fnA lA) ha
        have hvb := dictGet_lowerFixed (parseLines_values fnB lB) hb
        have heq : pyLower va = pyLower vb := by simpa using hk
        have : va = vb := by
          rw [← hva, ← hvb]
          exact heq
        rw [this]
  exact compare_data_pass name (mismatch_list_eq_nil hpt)

/-- Witness for C7: parsing the same file twice trivially satisfies the
pointwise-lowercase hypothesis, and a stored value is its own lowercase. -/
theorem case_insensitive_spec_witness :
    (compare_data (parse_file "a" (some ["[1] FF"]))
        (parse_file "b" (some ["[1] ff"])) "RF" = ⟨true, 0, ""⟩) ∧
    pyLower "ff" = "ff" :=
  ⟨case_insensitive_spec.2.1 "a" "b" ["[1] FF"] ["[1] ff"] "RF"
     (fun k => by rw [(by decide :
       (parseLines "a" ["[1] FF"]).data = (parseLines "b" ["[1] ff"]).data)]),
   case_insensitive_spec.1 "a" ["[1] FF"] 1 "ff" (by decide)⟩

/-! ## C1 — the comparison engine over two parsed images -/

/-- The sorted union visits exactly the keys present in either image. -/
theorem mem_sortedUnionKeys (a b : Dict) (i : Int) :
    i ∈ sortedUnionKeys a b ↔ (i ∈ dictKeys a ∨ i ∈ dictKeys b) := by
  unfold sortedUnionKeys
  rw [(List.perm_insertionSort (· ≤ ·) _).mem_iff, List.mem_dedup,
    List.mem_append]

/-- The sorted union is strictly ascending. -/
theorem sortedUnionKeys_sorted (a b : Dict) :
    List.Sorted (· < ·) (sortedUnionKeys a b) := by
  have h1 : List.Sorted (· ≤ ·) (sortedUnionKeys a b) :=
    List.sorted_insertionSort _ _
  have h2 : (sortedUnionKeys a b).Nodup :=
    (List.perm_insertionSort (· ≤ ·) _).nodup_iff.mpr (List.nodup_dedup _)
  exact h1.lt_of_le h2

theorem mismatch_map_index_aux (a b : Dict) (l : List Int) :
    ((l.filterMap fun idx =>
        let sim_val := getOrMissing a idx
        let golden_val := getOrMissing b idx
        if sim_val ≠ golden_val then some ⟨idx, sim_val, golden_val⟩
        else none).map Mism.index) =
      l.filter fun i => decide (getOrMissing a i ≠ getOrMissing b i) := by
  induction l with
  | nil => rfl
  | cons x t ih =>
    by_cases hc : getOrMissing a x ≠ getOrMissing b x
    · simp only [List.filterMap_cons, List.filter_cons]
      rw [if_pos hc]
      simp only [List.map_cons, ih, decide_eq_true hc]
      rfl
    · simp only [List.filterMap_cons, List.filter_cons]
      rw [if_neg hc]
      simp only [ih, decide_eq_false hc]
      rfl

/-- The emitted mismatch indices are the union keys at which the two
(sentinel-substituted) values differ, in the union's order. -/
theorem mismatch_list_map_index (a b : Dict) :
    (mismatch_list a b).map Mism.index =
      (sortedUnionKeys a b).filter
        fun i => decide (getOrMissing a i ≠ getOrMissing b i) :=
  mismatch_map_index_aux a b (sortedUnionKeys a b)

/-- Membership in the mismatch list, characterized. -/
theorem mem_mismatch_list (a b : Dict) (i : Int) (s g : String) :
    Mism.mk i s g ∈ mismatch_list a b ↔
      ((i ∈ dictKeys a ∨ i ∈ dictKeys b) ∧ s = getOrMissing a i ∧
        g = getOrMissing b i ∧ s ≠ g) := by
  unfold mismatch_list
  rw [List.mem_filterMap]
  constructor
  · rintro ⟨idx, hidx, hf⟩
    dsimp only at hf
    split at hf
    · next hc =>
      rw [Option.some.injEq, Mism.mk.injEq] at hf
      rcases hf with ⟨h1, h2, h3⟩
      subst h1
      rw [h2, h3] at hc
      exact ⟨(mem_sortedUnionKeys a b idx).mp hidx, h2.symm, h3.symm, hc⟩
    · cases hf
  · rintro ⟨hmem, hs, hg, hne⟩
    refine ⟨i, (mem_sortedUnionKeys a b i).mpr hmem, ?_⟩
    dsimp only
    rw [hs, hg] at hne
    rw [if_pos hne, hs, hg]

theorem dictGet_eq_none {d : Dict} {i : Int} (h : ¬ i ∈ dictKeys d) :
    dictGet d i = none := by
  unfold dictGet
  rw [List.find?_eq_none.mpr]
  · rfl
  · intro p hp hbeq
    exact h (List.mem_map.mpr ⟨p, hp, by simpa using hbeq⟩)

theorem dictGet_isSome_of_mem {d : Dict} {i : Int} (h : i ∈ dictKeys d) :
    ∃ v, dictGet d i = some v := by
  rcases List.mem_map.mp h with ⟨p, hp, hpi⟩
  have hsome : (List.find? (fun q => q.1 == i) d).isSome = true :=
    List.find?_isSome.mpr ⟨p, hp, by simp [hpi]⟩
  rcases Option.isSome_iff_exists.mp hsome with ⟨q, hq⟩
  exact ⟨q.2, by unfold dictGet; rw [hq]; rfl⟩

/-- A value stored by the parser is never the sentinel (it is lowercased,
and the sentinel contains uppercase letters). -/
theorem parsed_value_ne_missing {fn : String} {lines : List String} {i : Int}
    {v : String} (h : dictGet (parseLines fn lines).data i = some v) :
    v ≠ "MISSING" := by
  intro hv
  have hfix := dictGet_lowerFixed (parseLines_values fn lines) h
  rw [hv] at hfix
  exact absurd hfix (by decide)

/-- **C1.** For any two non-missing images, `compare_data` works over the
union of the two key sets, visited in ascending order; it emits one
mismatch record per index where the sentinel-substituted values differ;
`passed` is true iff the mismatch list is empty and `mismatch_count` is its
length; an index present in only one parsed image is always a mismatch with
the sentinel on the absent side; and on the spec's example pair it reports
exactly the two expected mismatches in ascending order. -/
theorem compare_data_spec :
    (∀ (a b : Dict) (name : String),
      (∀ i : Int, i ∈ sortedUnionKeys a b ↔ (i ∈ dictKeys a ∨ i ∈ dictKeys b)) ∧
      List.Sorted (· < ·) ((mismatch_list a b).map Mism.index) ∧
      (∀ (i : Int) (s g : String), Mism.mk i s g ∈ mismatch_list a b ↔
        ((i ∈ dictKeys a ∨ i ∈ dictKeys b) ∧ s = getOrMissing a i ∧
          g = getOrMissing b i ∧ s ≠ g)) ∧
      ((compare_data (some a) (some b) name).passed = true ↔
        mismatch_list a b = []) ∧
      (compare_data (some a) (some b) name).mismatch_count =
        (mismatch_list a b).length) ∧
    (∀ (fnA fnB : String) (lA lB : List String) (i : Int),
      (i ∈ dictKeys (parseLines fnA lA).data →
        ¬ i ∈ dictKeys (parseLines fnB lB).data →
        Mism.mk i (getOrMissing (parseLines fnA lA).data i) "MISSING" ∈
          mismatch_list (parseLines fnA lA).data (parseLines fnB lB).data) ∧
      (¬ i ∈ dictKeys (parseLines fnA lA).data →
        i ∈ dictKeys (parseLines fnB lB).data →
        Mism.mk i "MISSING" (getOrMissing (parseLines fnB lB).data i) ∈
          mismatch_list (parseLines fnA lA).data (parseLines fnB lB).data)) ∧
    (mismatch_list (parseLines "RF.out" ["[0] 1", "[2] 3"]).data
        (parseLines "RF.golden" ["[0] 1", "[1] 2"]).data =
      [⟨1, "MISSING", "2"⟩, ⟨2, "3", "MISSING"⟩] ∧
      (compare_data (parse_file "RF.out" (some ["[0] 1", "[2] 3"]))
        (parse_file "RF.golden" (some ["[0] 1", "[1] 2"])) "RF").passed =
        false ∧
      (compare_data (parse_file "RF.out" (some ["[0] 1", "[2] 3"]))
        (parse_file "RF.golden" (some ["[0] 1", "[1] 2"])) "RF").mismatch_count
        = 2) := by
  refine ⟨?_, ?_, by decide, by decide, by decide⟩
  · intro a b name
    refine ⟨mem_sortedUnionKeys a b, ?_, mem_mismatch_list a b, ?_, ?_⟩
    · rw [mismatch_list_map_index]
      exact (sortedUnionKeys_sorted a b).filter _
    · simp only [compare_data]
      split
      · next hc => exact ⟨fun _ => List.isEmpty_iff.mp hc, fun _ => rfl⟩
      · next hc =>
        simp only [Bool.not_eq_true] at hc
        constructor
        · intro hfalse
          cases hfalse
        · intro hnil
          rw [hnil] at hc
          cases hc
    · simp only [compare_data]
      split
      · next hc => rw [List.isEmpty_iff.mp hc]; rfl
      · rfl
  · intro fnA fnB lA lB i
    constructor
    · intro hA hB
      rcases dictGet_isSome_of_mem hA with ⟨v, hv⟩
      refine (mem_mismatch_list _ _ i _ _).mpr ⟨Or.inl hA, rfl, ?_, ?_⟩
      · unfold getOrMissing
        rw [dictGet_eq_none hB]
        rfl
      · unfold getOrMissing
        rw [hv]
        simpa using parsed_value_ne_missing hv
    · intro hA hB
      rcases dictGet_isSome_of_mem hB with ⟨v, hv⟩
      refine (mem_mismatch_list _ _ i _ _).mpr ⟨Or.inr hB, ?_, rfl, ?_⟩
      · unfold getOrMissing
        rw [dictGet_eq_none hA]
        rfl
      · unfold getOrMissing
        rw [hv]
        simpa using (parsed_value_ne_missing hv).symm

/-- Witness for C1: the sentinel conjunct at index 2 of the example pair
(present only on the simulation side), plus the membership equivalence at a
concrete record. -/
theorem compare_data_spec_witness :
    (2 : Int) ∈ dictKeys (parseLines "RF.out" ["[0] 1", "[2] 3"]).data ∧
    ¬ (2 : Int) ∈ dictKeys (parseLines "RF.golden" ["[0] 1", "[1] 2"]).data ∧
    Mism.mk 2 (getOrMissing (parseLines "RF.out" ["[0] 1", "[2] 3"]).data 2)
        "MISSING" ∈
      mismatch_list (parseLines "RF.out" ["[0] 1", "[2] 3"]).data
        (parseLines "RF.golden" ["[0] 1", "[1] 2"]).data :=
  ⟨by decide, by decide,
   (compare_data_spec.2.1 "RF.out" "RF.golden" ["[0] 1", "[2] 3"]
     ["[0] 1", "[1] 2"] 2).1 (by decide) (by decide)⟩

/-! ## Batch-loop machinery for C2 and C4 -/

/-- A test case id is skipped iff its input is missing, conversion fails, or
golden generation fails. -/
def skipP (tc : TC) : Bool := !(tc.present && tc.convertOk && tc.goldenOk)

/-- A test case id lands in `sim_failures` iff the input pipeline succeeds
but simulation fails. -/
def simFailP (tc : TC) : Bool :=
  tc.present && tc.convertOk && tc.goldenOk && !tc.simOk

/-- A test case id reaches `verify()` iff all four stage conditions hold. -/
def verifiedP (tc : TC) : Bool :=
  tc.present && tc.convertOk && tc.goldenOk && tc.simOk

/-- Exactly one of the three outcome categories holds for every test-case
environment. -/
theorem outcome_trichotomy (tc : TC) :
    (skipP tc = true ∧ simFailP tc = false ∧ verifiedP tc = false) ∨
    (skipP tc = false ∧ simFailP tc = true ∧ verifiedP tc = false) ∨
    (skipP tc = false ∧ simFailP tc = false ∧ verifiedP tc = true) := by
  unfold skipP simFailP verifiedP
  cases tc.present <;> cases tc.convertOk <;> cases tc.goldenOk <;>
    cases tc.simOk <;> simp

/-- Closed form of the batch loop from any starting state: each collection
is the start collection extended by the ids of the remaining range that
satisfy the corresponding predicate, in range order. -/
theorem foldl_runCase_spec (env : Nat → TC) (l : List Nat) (st : BatchState) :
    l.foldl (runCase env) st =
      ⟨st.results ++ (l.filter fun i => verifiedP (env i)).map
          (fun i => (i, verify (env i).fs)),
       st.sim_failures ++ (l.filter fun i => simFailP (env i)),
       st.skipped ++ (l.filter fun i => skipP (env i))⟩ := by
  induction l generalizing st with
  | nil => simp
  | cons x t ih =>
    rw [List.foldl_cons, ih]
    cases hp : (env x).present <;> cases hc : (env x).convertOk <;>
      cases hg : (env x).goldenOk <;> cases hs : (env x).simOk <;>
      simp [runCase, skipP, simFailP, verifiedP, hp, hc, hg, hs,
        List.filter_cons]

theorem run_all_skipped (env : Nat → TC) :
    (run_all_testcases env).skipped = idRange.filter fun i => skipP (env i) := by
  unfold run_all_testcases
  rw [foldl_runCase_spec]
  rfl

theorem run_all_sim_failures (env : Nat → TC) :
    (run_all_testcases env).sim_failures =
      idRange.filter fun i => simFailP (env i) := by
  unfold run_all_testcases
  rw [foldl_runCase_spec]
  rfl

theorem run_all_results (env : Nat → TC) :
    (run_all_testcases env).results =
      (idRange.filter fun i => verifiedP (env i)).map
        (fun i => (i, verify (env i).fs)) := by
  unfold run_all_testcases
  rw [foldl_runCase_spec]
  rfl

theorem run_all_result_ids (env : Nat → TC) :
    (run_all_testcases env).results.map Prod.fst =
      idRange.filter fun i => verifiedP (env i) := by
  rw [run_all_results, List.map_map]
  have hcomp : (Prod.fst ∘ fun i => (i, verify (env i).fs)) = id := rfl
  rw [hcomp, List.map_id]

theorem filter_three_length (env : Nat → TC) (l : List Nat) :
    (l.filter fun i => skipP (env i)).length +
      (l.filter fun i => simFailP (env i)).length +
      (l.filter fun i => verifiedP (env i)).length = l.length := by
  induction l with
  | nil => rfl
  | cons x t ih =>
    rcases outcome_trichotomy (env x) with ⟨h1, h2, h3⟩ | ⟨h1, h2, h3⟩ |
        ⟨h1, h2, h3⟩ <;>
      simp [List.filter_cons, h1, h2, h3] <;>
      omega

/-! ## C4 — every id is attempted once, in order, into exactly one category -/

/-- **C4.** The batch loop classifies every id of the fixed range `1..12`
into exactly one of the three collections: each collection is the ascending
filter of the range by its stage predicate; every in-range id lands in
exactly one collection (so no failure stops the loop from classifying the
rest); each collection is strictly ascending (each id attempted once, in
order); the three sizes always sum to 12; and if conversion fails for test
case 5 then 5 is skipped. -/
theorem batch_partition_spec :
    (∀ env : Nat → TC,
      (run_all_testcases env).skipped =
        idRange.filter (fun i => skipP (env i)) ∧
      (run_all_testcases env).sim_failures =
        idRange.filter (fun i => simFailP (env i)) ∧
      (run_all_testcases env).results.map Prod.fst =
        idRange.filter (fun i => verifiedP (env i))) ∧
    (∀ (env : Nat → TC) (i : Nat), i ∈ idRange →
      (i ∈ (run_all_testcases env).skipped ∨
        i ∈ (run_all_testcases env).sim_failures ∨
        i ∈ (run_all_testcases env).results.map Prod.fst) ∧
      ¬(i ∈ (run_all_testcases env).skipped ∧
        i ∈ (run_all_testcases env).sim_failures) ∧
      ¬(i ∈ (run_all_testcases env).skipped ∧
        i ∈ (run_all_testcases env).results.map Prod.fst) ∧
      ¬(i ∈ (run_all_testcases env).sim_failures ∧
        i ∈ (run_all_testcases env).results.map Prod.fst)) ∧
    (∀ env : Nat → TC,
      List.Sorted (· < ·) (run_all_testcases env).skipped ∧
      List.Sorted (· < ·) (run_all_testcases env).sim_failures ∧
      List.Sorted (· < ·) ((run_all_testcases env).results.map Prod.fst)) ∧
    (∀ env : Nat → TC,
      (run_all_testcases env).skipped.length +
        (run_all_testcases env).sim_failures.length +
        (run_all_testcases env).results.length = 12) ∧
    (∀ env : Nat → TC, (env 5).present = true → (env 5).convertOk = false →
      5 ∈ (run_all_testcases env).skipped) := by
  have hsorted : List.Sorted (· < ·) idRange := by decide
  refine ⟨fun env => ⟨run_all_skipped env, run_all_sim_failures env,
    run_all_result_ids env⟩, ?_, ?_, ?_, ?_⟩
  · intro env i hi
    rw [run_all_skipped, run_all_sim_failures, run_all_result_ids]
    simp only [List.mem_filter]
    rcases outcome_trichotomy (env i) with ⟨h1, h2, h3⟩ | ⟨h1, h2, h3⟩ |
        ⟨h1, h2, h3⟩ <;>
      simp [hi, h1, h2, h3]
  · intro env
    rw [run_all_skipped, run_all_sim_failures, run_all_result_ids]
    exact ⟨hsorted.filter _, hsorted.filter _, hsorted.filter _⟩
  · intro env
    rw [run_all_skipped, run_all_sim_failures, run_all_results,
      List.length_map]
    exact filter_three_length env idRange
  · intro env h1 h2
    rw [run_all_skipped]
    exact List.mem_filter.mpr ⟨by decide, by simp [skipP, h1, h2]⟩

/-- The environment where conversion fails for test case 5 only. -/
def convFail5Env : Nat → TC := fun i =>
  if i = 5 then ⟨true, false, true, true, goodFS⟩
  else ⟨true, true, true, true, goodFS⟩

/-- Witness for C4: with conversion failing for test case 5, id 5 is
skipped and id 6 still receives an outcome. -/
theorem batch_partition_spec_witness :
    5 ∈ (run_all_testcases convFail5Env).skipped ∧
    (6 ∈ (run_all_testcases convFail5Env).skipped ∨
      6 ∈ (run_all_testcases convFail5Env).sim_failures ∨
      6 ∈ (run_all_testcases convFail5Env).results.map Prod.fst) :=
  ⟨batch_partition_spec.2.2.2.2 convFail5Env (by decide) (by decide),
   (batch_partition_spec.2.1 convFail5Env 6 (by decide)).1⟩

/-! ## C2 — the aggregate batch boolean -/

theorem length_filter_eq_iff {α : Type} {p : α → Bool} {l : List α} :
    (l.filter p).length = l.length ↔ ∀ a ∈ l, p a = true := by
  induction l with
  | nil => simp
  | cons x t ih =>
    rw [List.filter_cons]
    by_cases hp : p x = true
    · rw [if_pos hp]
      simp only [List.length_cons, Nat.add_right_cancel_iff, ih]
      constructor
      · intro h a ha
        rcases List.mem_cons.mp ha with h' | h'
        · rw [h']; exact hp
        · exact h a h'
      · intro h a ha
        exact h a (List.mem_cons_of_mem x ha)
    · rw [if_neg hp]
      constructor
      · intro h
        have := List.length_filter_le p t
        simp only [List.length_cons] at h
        omega
      · intro h
        exact absurd (h x (List.mem_cons_self x t)) hp

/-- **C2 counterexample.** The claim says any skipped id makes the batch
aggregate false.  But a skipped id is simply not counted: with test case 1
missing (skipped) and every other id verified successfully, the aggregate
boolean is true and the `all`-mode exit code is 0, even though id 1
produced no `Verified` outcome. -/
def skipOneEnv : Nat → TC := fun i =>
  if i = 1 then ⟨false, true, true, true, goodFS⟩
  else ⟨true, true, true, true, goodFS⟩

theorem batch_skip_counterexample :
    batchSuccess skipOneEnv = true ∧
    allModeExitCode skipOneEnv = 0 ∧
    (run_all_testcases skipOneEnv).skipped = [1] ∧
    (run_all_testcases skipOneEnv).results.map Prod.fst =
      [2, 3, 4, 5, 6, 7, 8, 9, 10, 11, 12] :=
  ⟨by decide, by decide, by decide, by decide⟩

/-- **C2 (amended).** The aggregate boolean returned by `run_all_testcases`
(and hence exit code 0 for the `all` mode) is true iff at least one id
completed verification, every id that completed verification has
`success = true`, and no id failed simulation.  Skipped ids are not counted
at all: a batch with some ids skipped but all completed ids passing still
returns true (only a batch where no id completes verification returns
false). -/
theorem batchSuccess_iff :
    (∀ env : Nat → TC, batchSuccess env = true ↔
      ((run_all_testcases env).results ≠ [] ∧
        (∀ p ∈ (run_all_testcases env).results, p.2.success = true) ∧
        (run_all_testcases env).sim_failures = [])) ∧
    (∀ env : Nat → TC, allModeExitCode env = 0 ↔ batchSuccess env = true) := by
  constructor
  · intro env
    simp only [batchSuccess, passed_count]
    by_cases h0 : (run_all_testcases env).results.length = 0
    · rw [if_pos h0]
      have hnil : (run_all_testcases env).results = [] :=
        List.length_eq_zero.mp h0
      simp [hnil]
    · rw [if_neg h0]
      rw [Bool.and_eq_true, beq_iff_eq, List.isEmpty_iff]
      constructor
      · rintro ⟨h1, h2⟩
        exact ⟨fun hnil => h0 (by rw [hnil]; rfl),
          length_filter_eq_iff.mp h1, h2⟩
      · rintro ⟨_, h2, h3⟩
        exact ⟨length_filter_eq_iff.mpr h2, h3⟩
  · intro env
    unfold allModeExitCode
    cases hb : batchSuccess env <;> simp [hb]

/-- The environment where every id is present and passes. -/
def allPassEnv : Nat → TC := fun _ => ⟨true, true, true, true, goodFS⟩

/-- Witness for C2 (amended): the all-pass batch returns true and exits 0. -/
theorem batchSuccess_iff_witness :
    batchSuccess allPassEnv = true ∧ allModeExitCode allPassEnv = 0 :=
  ⟨(batchSuccess_iff.1 allPassEnv).mpr ⟨by decide, by decide, by decide⟩,
   (batchSuccess_iff.2 allPassEnv).mpr
     ((batchSuccess_iff.1 allPassEnv).mpr ⟨by decide, by decide, by decide⟩)⟩

end VerifyScript
